import Mathlib

/-!
Verification development for the AiPoParser purchase-order application.

The TypeScript source is shallowly embedded: JavaScript numbers are
modelled as rationals (`ℚ`), with an explicit `nan` constructor where a
value can be `NaN`; `null`/`undefined` become `Option`; JS objects used
as string-keyed maps become association lists in insertion order; the
external OpenAI engine and `JSON.parse` are modelled as parameters
(their outputs are untrusted inputs to the embedded code).

`Number(x.toFixed(2))` is modelled as exact decimal rounding to two
places, half away from zero for the nonnegative magnitudes involved
(IEEE-754 binary artifacts are abstracted away).
-/

/-- Rounding to two decimal places: the model of `Number(x.toFixed(2))`. -/
def round2 (x : ℚ) : ℚ := (Int.floor (x * 100 + 1 / 2) : ℚ) / 100

/-- A JavaScript answer value (`string | number | boolean`), with `NaN`
modelled explicitly as its own case. -/
inductive AnswerValue where
  | str (s : String)
  | num (q : ℚ)
  | nan
  | bool (b : Bool)
deriving DecidableEq

/-- A clarification question as produced by the draft generator
(shared/schema.ts, `AIQuestion`). -/
structure AIQuestion where
  id : String
  question : String
  reason : String
  related_item_indexes : List Nat
  suggested_options : List String
deriving DecidableEq

/-- A draft purchase-order line item (shared/schema.ts, `DraftPOItem`). -/
structure DraftPOItem where
  sku : Option String
  product_name : String
  unit_type : String
  requested_quantity_raw : String
  quantity : ℚ
  unit_price : Option ℚ
  currency : String
  line_total : Option ℚ
  price_source : String
  ai_confidence : ℚ
  ai_uncertain_fields : List String
  notes : String
deriving DecidableEq

/-- A profitability hint (shared/schema.ts, `AIProfitabilityHint`). -/
structure AIProfitabilityHint where
  message : String
  estimated_savings : Option ℚ
  applies_to_item_indexes : List Nat
deriving DecidableEq

/-- A draft purchase order (shared/schema.ts, `DraftPO`). -/
structure DraftPO where
  supplier_name : String
  status : String
  items : List DraftPOItem
  extra_notes_for_supplier : String
  delivery_instructions : String
  business_profitability_hints : List AIProfitabilityHint
deriving DecidableEq

/-- The advisory reasoning summary (shared/schema.ts, `AIReasoning`). -/
structure AIReasoning where
  overall_decision : String
  considerations : List String
  alternatives : List String
  global_confidence : ℚ
deriving DecidableEq

/-- The full response shape of a generation or clarification round
(shared/schema.ts, `AIParserResponse`). -/
structure AIParserResponse where
  draft_po : DraftPO
  questions_for_user : List AIQuestion
  reasoning_summary : AIReasoning
deriving DecidableEq

/-- Whether the character list `pat` occurs at the head of `l`. -/
def startsWithChars : List Char → List Char → Bool
  | [], _ => true
  | _ :: _, [] => false
  | p :: ps, c :: cs => p == c && startsWithChars ps cs

/-- Whether the character list `pat` occurs anywhere inside `l`. -/
def hasSubstrChars (pat : List Char) : List Char → Bool
  | [] => pat.isEmpty
  | c :: cs => startsWithChars pat (c :: cs) || hasSubstrChars pat cs

/-- JavaScript `s.includes(pat)`: substring containment. -/
def strIncludes (s pat : String) : Bool := hasSubstrChars pat.toList s.toList

/-- JavaScript `s.trim()`, modelled over the character list: whitespace
stripped from both ends. -/
def jsTrim (s : String) : String :=
  String.mk (((s.toList.dropWhile Char.isWhitespace).reverse.dropWhile Char.isWhitespace).reverse)

/-- The question-type tag inferred by the front-end. -/
inductive QuestionType where
  | sku
  | price
  | quantity
  | selection
  | text
deriving DecidableEq

/-- Function `detectQuestionType` (create-po page, src/unnamed/part_000): keyword
heuristics on the lowercased question text, first match wins. -/
def detectQuestionType (question : String) : QuestionType :=
  let lowerQuestion := question.toLower
  if strIncludes lowerQuestion "sku" || strIncludes lowerQuestion "product code" then .sku
  else if strIncludes lowerQuestion "price" || strIncludes lowerQuestion "cost" then .price
  else if strIncludes lowerQuestion "quantity" || strIncludes lowerQuestion "how many" then .quantity
  else if strIncludes lowerQuestion "which" || strIncludes lowerQuestion "select" || strIncludes lowerQuestion "choose" then .selection
  else .text

/-- The reference classification written from the specification's words:
over the lowercased text, containing "sku" or "product code" classifies
as sku; otherwise "price" or "cost" as price; otherwise "quantity" or
"how many" as quantity; otherwise "which", "select", or "choose" as
selection; otherwise free text. -/
def specQuestionClassification (question : String) : QuestionType :=
  let lowered := question.toLower
  if strIncludes lowered "sku" || strIncludes lowered "product code" then .sku
  else if strIncludes lowered "price" || strIncludes lowered "cost" then .price
  else if strIncludes lowered "quantity" || strIncludes lowered "how many" then .quantity
  else if strIncludes lowered "which" || strIncludes lowered "select" || strIncludes lowered "choose" then .selection
  else .text

/-- Lookup in an association list modelling a JS object keyed by strings. -/
def lookupAnswer : List (String × AnswerValue) → String → Option AnswerValue
  | [], _ => none
  | kv :: rest, k => if kv.1 = k then some kv.2 else lookupAnswer rest k

/-- JS spread-set `{ ...prev, [k]: v }`: replaces the value in place when
the key is present, otherwise appends the new entry. -/
def jsObjectSet (l : List (String × AnswerValue)) (k : String) (v : AnswerValue) :
    List (String × AnswerValue) :=
  if (l.map Prod.fst).contains k then
    l.map (fun kv => if kv.1 = k then (k, v) else kv)
  else l ++ [(k, v)]

/-- JS rest-destructuring delete `const { [k]: _removed, ...rest } = prev`:
removes the entry for `k`, keeping all others in order. -/
def jsObjectDelete (l : List (String × AnswerValue)) (k : String) :
    List (String × AnswerValue) :=
  l.filter (fun kv => kv.1 != k)

/-- The condition under which `handleClarificationAnswer` deletes the entry:
`value === null || value === "" || (typeof value === "number" && Number.isNaN(value))`. -/
def clearsAnswer (value : Option AnswerValue) : Bool :=
  value == none || value == some (.str "") || value == some .nan

/-- Function `handleClarificationAnswer` (create-po page, src/unnamed/part_000):
the state update applied to the clarification-answers map. A `none`
value models a JS `null` argument; the `none` case of the inner match is
unreachable because `clearsAnswer none = true`. -/
def handleClarificationAnswer (prev : List (String × AnswerValue)) (questionId : String)
    (value : Option AnswerValue) : List (String × AnswerValue) :=
  if clearsAnswer value then jsObjectDelete prev questionId
  else
    match value with
    | some v => jsObjectSet prev questionId v
    | none => jsObjectDelete prev questionId

/-- The post-processing at the end of `regeneratePOWithClarifications`
(src/server/ai-parser.ts): the parsed engine output `data` has every
question whose id is a key of `answers` filtered out of
`questions_for_user`; nothing else in `data` is touched. -/
def regenPostFilter (data : AIParserResponse) (answers : List (String × AnswerValue)) :
    AIParserResponse :=
  let answeredIds := answers.map Prod.fst
  { data with
    questions_for_user :=
      data.questions_for_user.filter (fun q => !(answeredIds.contains q.id)) }

/-- The two rejection shapes of the clarify-draft route's validation
(POST /api/ai/clarify-draft-po, src/unnamed/part_004). -/
inductive ClarifyRejection where
  | missingAnswers
  | invalidKeys (invalid : List String) (valid : List String)
deriving DecidableEq

/-- The validation performed by POST /api/ai/clarify-draft-po
(src/unnamed/part_004) on a well-formed payload, before any store read
or engine call: reject when the answers map is empty, then reject when
some answer key is not an id of the previous draft's questions (naming
the invalid keys); otherwise proceed, handing the answers through
unchanged to the store reads and `regeneratePOWithClarifications`. -/
def clarifyValidate (previousDraft : AIParserResponse)
    (answers : List (String × AnswerValue)) :
    Except ClarifyRejection (List (String × AnswerValue)) :=
  if (answers.map Prod.fst).length = 0 then .error .missingAnswers
  else
    let questionIds := previousDraft.questions_for_user.map AIQuestion.id
    let answerKeys := answers.map Prod.fst
    let invalidKeys := answerKeys.filter (fun key => !(questionIds.contains key))
    if invalidKeys.length > 0 then .error (.invalidKeys invalidKeys questionIds)
    else .ok answers

/-- The shape of an error thrown by the OpenAI client call, as inspected
by the catch blocks of src/server/ai-parser.ts (`error?.status`,
`error?.code`). -/
structure ApiCallError where
  status : Option Nat
  code : Option String
deriving DecidableEq

/-- Structure `AIParserError` (src/server/ai-parser.ts): the structured error the
parser throws; `errorType` is the `details.errorType` discriminator. -/
structure AIParserError where
  statusCode : Nat
  errorType : String
deriving DecidableEq

/-- The catch-block mapping of an OpenAI client error in `generateDraftPO`
and `regeneratePOWithClarifications` (src/server/ai-parser.ts): the
checks run in source order, first match wins. -/
def mapOpenAIError (error : ApiCallError) : AIParserError :=
  if error.status = some 401 ∨ error.code = some "invalid_api_key" then
    { statusCode := 503, errorType := "authentication" }
  else if error.status = some 429 ∨ error.code = some "rate_limit_exceeded" then
    { statusCode := 503, errorType := "rate_limit" }
  else if error.status = some 503 ∨ error.code = some "service_unavailable" then
    { statusCode := 503, errorType := "service_unavailable" }
  else if error.code = some "ENOTFOUND" ∨ error.code = some "ECONNREFUSED" ∨
      error.code = some "ETIMEDOUT" then
    { statusCode := 503, errorType := "network" }
  else
    { statusCode := 500, errorType := "unknown" }

/-- JS `indexOf` on a character list, as an `Option`-valued first index. -/
def jsIndexOfChar (l : List Char) (c : Char) : Option Nat :=
  l.findIdx? (· == c)

/-- JS `lastIndexOf` on a character list: last index of `c`, if any. -/
def jsLastIndexOfChar (l : List Char) (c : Char) : Option Nat :=
  match l.reverse.findIdx? (· == c) with
  | some i => some (l.length - 1 - i)
  | none => none

/-- Function `extractJson` (src/server/ai-parser.ts), parameterized by the
untrusted `JSON.parse` (modelled as `parse`, `none` meaning a parse
exception): trim, attempt a strict parse, else attempt exactly the
substring from the first brace to the last closing brace when that span
is nonempty, else fail with the distinct unparsable-output message. -/
def extractJson {α : Type} (parse : String → Option α) (text : String) : Except String α :=
  let trimmed := jsTrim text
  match parse trimmed with
  | some v => .ok v
  | none =>
    let chars := trimmed.toList
    match jsIndexOfChar chars '\x7b', jsLastIndexOfChar chars '\x7d' with
    | some s, some e =>
      if e > s then
        let candidate := String.mk ((chars.drop s).take (e + 1 - s))
        match parse candidate with
        | some v => .ok v
        | none => .error "Could not parse valid JSON from model output."
      else .error "Could not parse valid JSON from model output."
    | _, _ => .error "Could not parse valid JSON from model output."

/-- The outcome of the single OpenAI chat-completions call: either the
client threw, or it returned `choices[0]?.message?.content` (possibly
absent). -/
inductive EngineOutcome where
  | failure (error : ApiCallError)
  | success (content : Option String)

/-- The body of `generateDraftPO` (src/server/ai-parser.ts) after the
credential check, as a function of the single engine call's outcome and
of `JSON.parse`: a thrown client error is mapped by the catch block and
rethrown (no retry, no draft); empty content is the distinct
empty-response error; otherwise the output is parsed by `extractJson`,
whose failure becomes the json-parse-error. The same structure is used
verbatim in `regeneratePOWithClarifications`. -/
def generateDraftPO (outcome : EngineOutcome)
    (parse : String → Option AIParserResponse) : Except AIParserError AIParserResponse :=
  match outcome with
  | .failure e => .error (mapOpenAIError e)
  | .success content =>
    let rawText := content.getD ""
    if rawText = "" then .error { statusCode := 500, errorType := "empty_response" }
    else
      match extractJson parse rawText with
      | .ok data => .ok data
      | .error _ => .error { statusCode := 500, errorType := "json_parse_error" }

/-- The per-index item view used by the create-po page: the edit buffer
entry for the index when present, else the draft's item
(`editingItems[index] ?? item`). The edit buffer
`Record<number, DraftPOItem>` is modelled as `Nat → Option DraftPOItem`. -/
def currentItemsFrom (editing : Nat → Option DraftPOItem) :
    Nat → List DraftPOItem → List DraftPOItem
  | _, [] => []
  | idx, item :: rest => ((editing idx).getD item) :: currentItemsFrom editing (idx + 1) rest

/-- Function `currentItems` (create-po page, src/unnamed/part_000): the draft's
items with per-index edits applied. -/
def currentItems (resp : AIParserResponse) (editing : Nat → Option DraftPOItem) :
    List DraftPOItem :=
  currentItemsFrom editing 0 resp.draft_po.items

/-- The per-item conjunct of `canSaveDraft`:
`Boolean(item.sku && item.sku.trim().length > 0) && item.quantity > 0 &&
item.unit_price !== null && item.unit_price > 0`. -/
def itemComplete (item : DraftPOItem) : Bool :=
  (match item.sku with
   | some s => decide (jsTrim s ≠ "")
   | none => false)
  && decide (item.quantity > 0)
  && (match item.unit_price with
      | some p => decide (p > 0)
      | none => false)

/-- Function `canSaveDraft` (create-po page, src/unnamed/part_000): false without a
response or with an empty supplier name or no items; otherwise every
current item must pass `itemComplete`. -/
def canSaveDraft (aiResponse : Option AIParserResponse)
    (editing : Nat → Option DraftPOItem) : Bool :=
  match aiResponse with
  | none => false
  | some resp =>
    if resp.draft_po.supplier_name = "" then false
    else if (currentItems resp editing).length = 0 then false
    else (currentItems resp editing).all itemComplete

/-- The item mapping of `handleSavePO` (create-po page,
src/unnamed/part_000): for each index, take the edited item if present,
then overwrite `line_total` with `Number((unit_price * quantity).toFixed(2))`
whenever `unit_price !== null`. -/
def commitItemsFrom (editing : Nat → Option DraftPOItem) :
    Nat → List DraftPOItem → List DraftPOItem
  | _, [] => []
  | idx, item :: rest =>
    (let edited := (editing idx).getD item
     match edited.unit_price with
     | some p => { edited with line_total := some (round2 (p * edited.quantity)) }
     | none => edited) :: commitItemsFrom editing (idx + 1) rest

/-- Function `handleSavePO` (create-po page, src/unnamed/part_000): returns early
(no mutation posted, `none`) without a response or when `canSaveDraft`
fails, showing the structured missing-fields toast; otherwise posts the
draft with the recomputed items to POST /api/purchase-orders. -/
def handleSavePO (aiResponse : Option AIParserResponse)
    (editing : Nat → Option DraftPOItem) : Option DraftPO :=
  match aiResponse with
  | none => none
  | some resp =>
    if canSaveDraft (some resp) editing then
      some { resp.draft_po with items := commitItemsFrom editing 0 resp.draft_po.items }
    else none

/-- The camel-case item shape built by POST /api/purchase-orders
(src/unnamed/part_004, `normalizedItems`) before schema validation and
persistence. -/
structure NormalizedPoItem where
  sku : String
  productName : String
  unitType : String
  requestedQuantityRaw : Option String
  quantity : ℚ
  unitPrice : Option ℚ
  currency : String
  lineTotal : Option ℚ
  priceSource : Option String
  aiConfidence : Option ℚ
  notes : Option String
deriving DecidableEq

/-- The normalization POST /api/purchase-orders (src/unnamed/part_004)
applies to each snake-case draft item sent by the client: every field,
`lineTotal` included, is passed through with only null-coalescing
defaults — the route computes nothing. -/
def normalizePoItem (item : DraftPOItem) : NormalizedPoItem :=
  { sku := item.sku.getD ""
    productName := item.product_name
    unitType := item.unit_type
    requestedQuantityRaw := some item.requested_quantity_raw
    quantity := item.quantity
    unitPrice := item.unit_price
    currency := item.currency
    lineTotal := item.line_total
    priceSource := some item.price_source
    aiConfidence := some item.ai_confidence
    notes := some item.notes }

/-- The new price-list row submitted when the user creates a product from
a clarification question (shared/schema.ts, `InsertPriceListRow`, as used
by `createProductMutation`). -/
structure InsertPriceListRow where
  supplierId : String
  sku : String
  productName : String
  unitType : String
  unitPrice : ℚ
  currency : Option String
  notes : Option String
deriving DecidableEq

/-- The per-item update of `createProductMutation.onSuccess` (create-po
page, src/unnamed/part_000) for an item related to the resolved
question: sku, unit type and unit price come from the new catalog row;
`line_total` is recomputed as `Number((quantity * unitPrice).toFixed(2))`
when both `quantity` and `variables.unitPrice` (here `productRow.unitPrice`) are truthy (nonzero),
else kept; "sku", "unit_price" and "price" are filtered out of
`ai_uncertain_fields`; `ai_confidence` becomes
`Math.max(old, 0.95)`. -/
def resolveItemWithProduct (productRow : InsertPriceListRow) (item : DraftPOItem) :
    DraftPOItem :=
  let quantity := item.quantity
  let newLineTotal :=
    if quantity ≠ 0 ∧ productRow.unitPrice ≠ 0 then
      some (round2 (quantity * productRow.unitPrice))
    else item.line_total
  let filteredUncertain :=
    item.ai_uncertain_fields.filter (fun field => !(["sku", "unit_price", "price"].contains field))
  let updatedCurrency := productRow.currency.getD item.currency
  { item with
    sku := some productRow.sku
    product_name := if productRow.productName ≠ "" then productRow.productName else item.product_name
    unit_type := productRow.unitType
    unit_price := some productRow.unitPrice
    currency := updatedCurrency
    line_total := newLineTotal
    price_source := "Manual price list entry"
    ai_confidence := max item.ai_confidence 0.95
    ai_uncertain_fields := filteredUncertain }

/-- The indexed item map of the `setAiResponse` updater in
`createProductMutation.onSuccess`: items whose index is in
`relatedIndexes` are resolved with the new row, all others unchanged. -/
def resolveItemsFrom (productRow : InsertPriceListRow) (relatedIndexes : List Nat) :
    Nat → List DraftPOItem → List DraftPOItem
  | _, [] => []
  | idx, item :: rest =>
    (if relatedIndexes.contains idx then resolveItemWithProduct productRow item else item)
      :: resolveItemsFrom productRow relatedIndexes (idx + 1) rest

/-- The `setAiResponse` updater of `createProductMutation.onSuccess`
(create-po page, src/unnamed/part_000): the out-of-band resolution of a
pending question by a newly created price-list row, applied to every
item referenced by the question's `relatedItemIndexes`. -/
def applyCatalogResolution (previous : AIParserResponse) (relatedIndexes : List Nat)
    (productRow : InsertPriceListRow) : AIParserResponse :=
  { previous with
    draft_po :=
      { previous.draft_po with
        items := resolveItemsFrom productRow relatedIndexes 0 previous.draft_po.items } }

/-- A concrete open question about a price tier, related to item 0. -/
def questionA : AIQuestion :=
  { id := "q1"
    question := "Which unit price applies for 50 boxes?"
    reason := "tier boundary"
    related_item_indexes := [0]
    suggested_options := [] }

/-- A concrete open question about an unknown SKU, related to item 0. -/
def questionB : AIQuestion :=
  { id := "q2"
    question := "What SKU should be used?"
    reason := "missing sku"
    related_item_indexes := [0]
    suggested_options := [] }

/-- A concrete draft item with an uncertain unit price. -/
def itemA : DraftPOItem :=
  { sku := some "HYDRO-301"
    product_name := "HydroLoc Grey Herringbone"
    unit_type := "box"
    requested_quantity_raw := "50 boxes"
    quantity := 50
    unit_price := some (1899 / 100)
    currency := "GBP"
    line_total := some (18990 / 20)
    price_source := "price list"
    ai_confidence := 4 / 5
    ai_uncertain_fields := ["unit_price"]
    notes := "" }

/-- A concrete advisory reasoning summary. -/
def reasoningA : AIReasoning :=
  { overall_decision := "draft"
    considerations := []
    alternatives := []
    global_confidence := 4 / 5 }

/-- A concrete prior draft response with two open questions. -/
def responseAB : AIParserResponse :=
  { draft_po :=
      { supplier_name := "EverFloor Supplies"
        status := "draft"
        items := [itemA]
        extra_notes_for_supplier := ""
        delivery_instructions := ""
        business_profitability_hints := [] }
    questions_for_user := [questionA, questionB]
    reasoning_summary := reasoningA }

/-- A possible regenerated engine output in which the unit price asked
about by `questionA` was applied but the item's confidence was dropped
to 0.1, far below the prior 0.8. -/
def engineOutputLowConfidence : AIParserResponse :=
  { draft_po :=
      { responseAB.draft_po with
        items := [{ itemA with
          unit_price := some (35 / 2)
          line_total := some 875
          ai_confidence := 1 / 10
          ai_uncertain_fields := [] }] }
    questions_for_user := []
    reasoning_summary := reasoningA }

/-- Claim C9: question-type classification is a deterministic pure
function of the question text, equal to the reference definition written
from the specification's keyword precedence (sku / price / quantity /
selection / free text over the lowercased text); in particular the same
question text always classifies the same way. -/
theorem detectQuestionType_matches_spec :
    ∀ question : String, detectQuestionType question = specQuestionClassification question :=
  fun _ => rfl

/-- Claim C1: every question surviving the clarification merge's
post-filter has an id that is not a key of the answers map — the filter
at the end of `regeneratePOWithClarifications` removes every answered
id from the parsed engine output, even when the engine reintroduced a
question with an answered id. -/
theorem regen_excludes_answered_questions (data : AIParserResponse)
    (answers : List (String × AnswerValue)) (q : AIQuestion)
    (hq : q ∈ (regenPostFilter data answers).questions_for_user) :
    q.id ∉ answers.map Prod.fst := by
  unfold regenPostFilter at hq
  simp only [List.mem_filter] at hq
  simpa using hq.2

/-- Witness for C1: with the prior draft's two questions both present in
the engine's regenerated output and "q1" answered, the unanswered
question `questionB` survives the post-filter, and the theorem yields
that its id is not among the answered keys. -/
theorem regen_excludes_answered_questions_witness :
    questionB ∈ (regenPostFilter responseAB [("q1", AnswerValue.num (35 / 2))]).questions_for_user
    ∧ questionB.id ∉ ([("q1", AnswerValue.num (35 / 2))].map Prod.fst) := by
  have hmem : questionB ∈
      (regenPostFilter responseAB [("q1", AnswerValue.num (35 / 2))]).questions_for_user := by
    decide
  exact ⟨hmem, regen_excludes_answered_questions responseAB _ questionB hmem⟩

/-- Counterexample for C4: the clarification merge's only code-level
post-processing (`regenPostFilter`) does not repair confidence. With the
prior draft `responseAB` (item 0 confidence 0.8, its `unit_price`
uncertain and asked about by "q1"), answers resolving "q1", and the
engine's regenerated output carrying confidence 0.1 for that item, the
merged draft's post-merge confidence is 0.1, strictly below the
pre-merge 0.8 — the claimed max(old, new)-to-at-least-0.9 repair does
not happen in this path. -/
theorem regen_confidence_drop :
    (regenPostFilter engineOutputLowConfidence
        [("q1", AnswerValue.num (35 / 2))]).draft_po.items.map DraftPOItem.ai_confidence
      = [1 / 10]
    ∧ responseAB.draft_po.items.map DraftPOItem.ai_confidence = [4 / 5]
    ∧ ¬ ((4 : ℚ) / 5 ≤ 1 / 10) := by
  refine ⟨rfl, rfl, by norm_num⟩

/-- Claim C4 as amended: the server-side clarification merge passes item
confidences through from the engine output unrepaired (its post-filter
touches only the question list), while the enforced confidence repair
lives in the out-of-band catalog-resolution path: there, a resolved
item's confidence becomes `max(old, 0.95)` — hence never lower than
before and at least 0.9 — and the "sku", "unit_price" and "price"
entries are removed from its `uncertainFields`. -/
theorem confidence_repair_enforcement (data : AIParserResponse)
    (answers : List (String × AnswerValue)) (productRow : InsertPriceListRow)
    (item : DraftPOItem) :
    (regenPostFilter data answers).draft_po = data.draft_po
    ∧ (resolveItemWithProduct productRow item).ai_confidence = max item.ai_confidence 0.95
    ∧ item.ai_confidence ≤ (resolveItemWithProduct productRow item).ai_confidence
    ∧ (0.9 : ℚ) ≤ (resolveItemWithProduct productRow item).ai_confidence
    ∧ "sku" ∉ (resolveItemWithProduct productRow item).ai_uncertain_fields
    ∧ "unit_price" ∉ (resolveItemWithProduct productRow item).ai_uncertain_fields
    ∧ "price" ∉ (resolveItemWithProduct productRow item).ai_uncertain_fields := by
  refine ⟨rfl, rfl, le_max_left _ _, ?_, ?_, ?_, ?_⟩
  · calc (0.9 : ℚ) ≤ 0.95 := by norm_num
      _ ≤ max item.ai_confidence 0.95 := le_max_right _ _
  all_goals
    intro h
    simp only [resolveItemWithProduct] at h
    have h2 := (List.mem_filter.mp h).2
    simp at h2

/-- Index characterization of `resolveItemsFrom`: the item at position
`i` is resolved exactly when `offset + i` is listed in
`relatedIndexes`. -/
theorem resolveItemsFrom_getElem (productRow : InsertPriceListRow)
    (relatedIndexes : List Nat) :
    ∀ (l : List DraftPOItem) (offset i : Nat),
      (resolveItemsFrom productRow relatedIndexes offset l)[i]? =
        (l[i]?).map (fun item =>
          if relatedIndexes.contains (offset + i) then
            resolveItemWithProduct productRow item
          else item) := by
  intro l
  induction l with
  | nil => intro offset i; simp [resolveItemsFrom]
  | cons item rest ih =>
    intro offset i
    cases i with
    | zero => simp [resolveItemsFrom]
    | succ j =>
      have harith : offset + 1 + j = offset + (j + 1) := by omega
      simp only [resolveItemsFrom, List.getElem?_cons_succ, ih (offset + 1) j, harith]

/-- Claim C5: resolving a pending question out of band by creating a new
price-list row updates every item whose index appears in the question's
`relatedItemIndexes` (not only the first one): its sku, unit type and
unit price are set from the new catalog row, its line total is
recomputed as round2(quantity * unitPrice) when both quantity and the
new price are nonzero, the "sku"/"unit_price"/"price" entries are
removed from its `ai_uncertain_fields`, and its confidence becomes
max(old, 0.95). -/
theorem catalog_resolution_updates_all_related (previous : AIParserResponse)
    (relatedIndexes : List Nat) (productRow : InsertPriceListRow)
    (i : Nat) (item : DraftPOItem)
    (hmem : i ∈ relatedIndexes)
    (hitem : previous.draft_po.items[i]? = some item) :
    ∃ newItem,
      (applyCatalogResolution previous relatedIndexes productRow).draft_po.items[i]?
          = some newItem
      ∧ newItem.sku = some productRow.sku
      ∧ newItem.unit_type = productRow.unitType
      ∧ newItem.unit_price = some productRow.unitPrice
      ∧ newItem.ai_confidence = max item.ai_confidence 0.95
      ∧ (item.quantity ≠ 0 → productRow.unitPrice ≠ 0 →
          newItem.line_total = some (round2 (item.quantity * productRow.unitPrice)))
      ∧ "sku" ∉ newItem.ai_uncertain_fields
      ∧ "unit_price" ∉ newItem.ai_uncertain_fields
      ∧ "price" ∉ newItem.ai_uncertain_fields := by
  refine ⟨resolveItemWithProduct productRow item, ?_, rfl, rfl, rfl, rfl, ?_, ?_, ?_, ?_⟩
  · show (resolveItemsFrom productRow relatedIndexes 0 previous.draft_po.items)[i]? = _
    rw [resolveItemsFrom_getElem, hitem]
    have hc : relatedIndexes.contains i = true := by
      simpa using hmem
    simp only [Nat.zero_add, hc, if_true, Option.map_some']
  · intro hq hp
    simp only [resolveItemWithProduct]
    rw [if_pos ⟨hq, hp⟩]
  all_goals
    intro h
    simp only [resolveItemWithProduct] at h
    have h2 := (List.mem_filter.mp h).2
    simp at h2

/-- A second draft item, with unresolved sku and price, used to show the
out-of-band resolution reaches items beyond the first related index. -/
def itemB : DraftPOItem :=
  { sku := none
    product_name := "Oak flooring"
    unit_type := "box"
    requested_quantity_raw := "3 boxes"
    quantity := 3
    unit_price := none
    currency := "GBP"
    line_total := none
    price_source := ""
    ai_confidence := 1 / 2
    ai_uncertain_fields := ["sku", "price"]
    notes := "" }

/-- A draft response holding two items. -/
def responseTwoItems : AIParserResponse :=
  { draft_po :=
      { supplier_name := "EverFloor Supplies"
        status := "draft"
        items := [itemA, itemB]
        extra_notes_for_supplier := ""
        delivery_instructions := ""
        business_profitability_hints := [] }
    questions_for_user := [questionA]
    reasoning_summary := reasoningA }

/-- A concrete newly created price-list row. -/
def productRowA : InsertPriceListRow :=
  { supplierId := "sup-1"
    sku := "HYDRO-301"
    productName := "HydroLoc Grey Herringbone"
    unitType := "pallet"
    unitPrice := 35 / 2
    currency := some "GBP"
    notes := none }

/-- Witness for C5: with a question relating items 0 and 1, the second
related item (index 1, not the first) is also updated from the new
catalog row. -/
theorem catalog_resolution_updates_all_related_witness :
    ∃ newItem,
      (applyCatalogResolution responseTwoItems [0, 1] productRowA).draft_po.items[1]?
          = some newItem
      ∧ newItem.sku = some productRowA.sku
      ∧ newItem.unit_type = productRowA.unitType
      ∧ newItem.unit_price = some productRowA.unitPrice
      ∧ newItem.ai_confidence = max itemB.ai_confidence 0.95
      ∧ (itemB.quantity ≠ 0 → productRowA.unitPrice ≠ 0 →
          newItem.line_total = some (round2 (itemB.quantity * productRowA.unitPrice)))
      ∧ "sku" ∉ newItem.ai_uncertain_fields
      ∧ "unit_price" ∉ newItem.ai_uncertain_fields
      ∧ "price" ∉ newItem.ai_uncertain_fields :=
  catalog_resolution_updates_all_related responseTwoItems [0, 1] productRowA 1 itemB
    (by decide) rfl

/-- Characterization of the per-item commit-gate conjunct. -/
theorem itemComplete_iff (item : DraftPOItem) :
    itemComplete item = true ↔
      ((∃ s, item.sku = some s ∧ jsTrim s ≠ "")
        ∧ 0 < item.quantity
        ∧ ∃ p, item.unit_price = some p ∧ 0 < p) := by
  unfold itemComplete
  cases hs : item.sku <;> cases hp : item.unit_price <;>
    simp [Bool.and_eq_true, decide_eq_true_iff, and_assoc]

/-- Claim C3: the commit gate `canSaveDraft` is true exactly when the
draft's supplier name is non-empty, the (edit-adjusted) item list is
non-empty, and every item has a non-empty trimmed sku, quantity
strictly positive, and a non-null, strictly positive unit price; and a
draft failing the gate makes `handleSavePO` return early — nothing is
posted to the persistence route. -/
theorem commit_gate_characterization (resp : AIParserResponse)
    (editing : Nat → Option DraftPOItem) :
    (canSaveDraft (some resp) editing = true ↔
      (resp.draft_po.supplier_name ≠ ""
        ∧ currentItems resp editing ≠ []
        ∧ ∀ item ∈ currentItems resp editing,
            (∃ s, item.sku = some s ∧ jsTrim s ≠ "")
            ∧ 0 < item.quantity
            ∧ ∃ p, item.unit_price = some p ∧ 0 < p))
    ∧ (canSaveDraft (some resp) editing = false →
        handleSavePO (some resp) editing = none) := by
  constructor
  · unfold canSaveDraft
    by_cases hname : resp.draft_po.supplier_name = ""
    · simp [hname]
    · by_cases hlen : (currentItems resp editing).length = 0
      · simp [hname, hlen, List.length_eq_zero.mp hlen]
      · simp only [hname, hlen, if_false, List.all_eq_true]
        constructor
        · intro hall
          refine ⟨hname, ?_, fun item hmem => (itemComplete_iff item).mp (hall item hmem)⟩
          intro hnil
          exact hlen (by simp [hnil])
        · intro hspec item hmem
          exact (itemComplete_iff item).mpr (hspec.2.2 item hmem)
  · intro hfalse
    unfold handleSavePO
    simp [hfalse]

/-- An incomplete draft: its only item has no sku and no unit price. -/
def respIncomplete : AIParserResponse :=
  { draft_po :=
      { supplier_name := "EverFloor Supplies"
        status := "draft"
        items := [itemB]
        extra_notes_for_supplier := ""
        delivery_instructions := ""
        business_profitability_hints := [] }
    questions_for_user := [questionB]
    reasoning_summary := reasoningA }

/-- Witness for C3: the incomplete draft fails the gate and the save
handler returns early without posting anything. -/
theorem commit_gate_characterization_witness :
    canSaveDraft (some respIncomplete) (fun _ => none) = false
    ∧ handleSavePO (some respIncomplete) (fun _ => none) = none := by
  have h : canSaveDraft (some respIncomplete) (fun _ => none) = false := by decide
  exact ⟨h, (commit_gate_characterization respIncomplete (fun _ => none)).2 h⟩

/-- If every edit-adjusted item passes the gate's per-item check, then
every item produced by `handleSavePO`'s mapping has a non-null unit
price and a line total recomputed as round2(unitPrice * quantity). -/
theorem commitItemsFrom_complete (editing : Nat → Option DraftPOItem) :
    ∀ (l : List DraftPOItem) (idx : Nat),
      (currentItemsFrom editing idx l).all itemComplete = true →
      ∀ itm ∈ commitItemsFrom editing idx l,
        ∃ p, itm.unit_price = some p ∧ itm.line_total = some (round2 (p * itm.quantity)) := by
  intro l
  induction l with
  | nil => intro idx _ itm hmem; simp [commitItemsFrom] at hmem
  | cons item rest ih =>
    intro idx hall itm hmem
    simp only [currentItemsFrom, List.all_cons, Bool.and_eq_true] at hall
    simp only [commitItemsFrom, List.mem_cons] at hmem
    rcases hmem with hmem | hmem
    · obtain ⟨-, -, p, hp, -⟩ := (itemComplete_iff _).mp hall.1
      subst hmem
      rw [hp]
      exact ⟨p, rfl, rfl⟩
    · exact ih (idx + 1) hall.2 itm hmem

/-- Claim C2: when the save handler accepts a draft, every item it posts
to the purchase-order route carries `line_total = round2(unit_price *
quantity)` — the carried total was overwritten — and the route's
normalization passes that recomputed value through unchanged into the
persisted `lineTotal`. -/
theorem commit_recomputes_line_totals (resp : AIParserResponse)
    (editing : Nat → Option DraftPOItem) (po : DraftPO)
    (hsave : handleSavePO (some resp) editing = some po)
    (itm : DraftPOItem) (hitm : itm ∈ po.items) :
    ∃ p, itm.unit_price = some p
      ∧ itm.line_total = some (round2 (p * itm.quantity))
      ∧ (normalizePoItem itm).lineTotal = some (round2 (p * itm.quantity)) := by
  simp only [handleSavePO] at hsave
  by_cases hgate : canSaveDraft (some resp) editing = true
  · rw [if_pos hgate] at hsave
    injection hsave with hpo
    subst hpo
    have hall : (currentItemsFrom editing 0 resp.draft_po.items).all itemComplete = true := by
      simp only [canSaveDraft, currentItems] at hgate
      by_cases hname : resp.draft_po.supplier_name = ""
      · rw [if_pos hname] at hgate; exact absurd hgate (by simp)
      · rw [if_neg hname] at hgate
        by_cases hlen : (currentItemsFrom editing 0 resp.draft_po.items).length = 0
        · rw [if_pos hlen] at hgate; exact absurd hgate (by simp)
        · rwa [if_neg hlen] at hgate
    obtain ⟨p, hp, hlt⟩ :=
      commitItemsFrom_complete editing resp.draft_po.items 0 hall itm hitm
    exact ⟨p, hp, hlt, by simpa [normalizePoItem] using hlt⟩
  · rw [if_neg hgate] at hsave
    exact absurd hsave (by simp)

/-- A complete draft item carrying a stale line total (999 instead of
unit price 5 times quantity 2). -/
def itemStale : DraftPOItem :=
  { sku := some "SKU-1"
    product_name := "Widget"
    unit_type := "box"
    requested_quantity_raw := "2 boxes"
    quantity := 2
    unit_price := some 5
    currency := "GBP"
    line_total := some 999
    price_source := "carried over"
    ai_confidence := 1
    ai_uncertain_fields := []
    notes := "" }

/-- A gate-passing draft response whose single item carries the stale
line total. -/
def respStale : AIParserResponse :=
  { draft_po :=
      { supplier_name := "Acme Supplies"
        status := "draft"
        items := [itemStale]
        extra_notes_for_supplier := ""
        delivery_instructions := ""
        business_profitability_hints := [] }
    questions_for_user := []
    reasoning_summary := reasoningA }

/-- The stale item after the save handler's recomputation. -/
def itemStaleRecomputed : DraftPOItem :=
  { itemStale with line_total := some (round2 (5 * 2)) }

/-- The draft purchase order posted for `respStale`. -/
def poStale : DraftPO :=
  { respStale.draft_po with items := [itemStaleRecomputed] }

/-- Witness for C2: saving `respStale` posts its item with the stale
carried total 999 replaced by round2(5 * 2). -/
theorem commit_recomputes_line_totals_witness :
    ∃ p, itemStaleRecomputed.unit_price = some p
      ∧ itemStaleRecomputed.line_total = some (round2 (p * itemStaleRecomputed.quantity))
      ∧ (normalizePoItem itemStaleRecomputed).lineTotal
          = some (round2 (p * itemStaleRecomputed.quantity)) := by
  have hq : itemComplete itemStale = true :=
    (itemComplete_iff itemStale).mpr
      ⟨⟨"SKU-1", rfl, by decide⟩, by norm_num [itemStale], 5, rfl, by norm_num⟩
  have hgate : canSaveDraft (some respStale) (fun _ => none) = true := by
    simp only [canSaveDraft, currentItems]
    rw [if_neg (by decide : ¬(respStale.draft_po.supplier_name = ""))]
    rw [if_neg (by decide :
      ¬((currentItemsFrom (fun _ => none) 0 respStale.draft_po.items).length = 0))]
    show ([itemStale].all itemComplete) = true
    simp [hq]
  have hsave : handleSavePO (some respStale) (fun _ => none) = some poStale := by
    simp only [handleSavePO]
    rw [if_pos hgate]
    rfl
  exact commit_recomputes_line_totals respStale (fun _ => none) poStale hsave
    itemStaleRecomputed (List.mem_cons_self _ _)

/-- Claim C6: the clarify-draft route's validation accepts a well-formed
request exactly when the answers map is nonempty and every key is the id
of one of the previous draft's open questions — so any nonempty subset
of the open questions may be answered; an accepted answers map is handed
through unchanged to the engine call; an invalid-key rejection names
exactly the offending keys; and the empty-map rejection happens exactly
on an empty answers map. Both rejections occur before the store reads
and the engine call, which only the `.ok` continuation performs. -/
theorem clarify_validation (previousDraft : AIParserResponse)
    (answers : List (String × AnswerValue)) :
    ((∃ v, clarifyValidate previousDraft answers = .ok v) ↔
      (answers ≠ []
        ∧ ∀ k ∈ answers.map Prod.fst, k ∈ previousDraft.questions_for_user.map AIQuestion.id))
    ∧ (∀ v, clarifyValidate previousDraft answers = .ok v → v = answers)
    ∧ (∀ invalid valid,
        clarifyValidate previousDraft answers = .error (.invalidKeys invalid valid) →
          invalid = (answers.map Prod.fst).filter
              (fun k => !((previousDraft.questions_for_user.map AIQuestion.id).contains k))
            ∧ invalid ≠ []
            ∧ valid = previousDraft.questions_for_user.map AIQuestion.id)
    ∧ (clarifyValidate previousDraft answers = .error .missingAnswers ↔ answers = []) := by
  unfold clarifyValidate
  by_cases hempty : (answers.map Prod.fst).length = 0
  · have hnil : answers = [] := by
      cases answers with
      | nil => rfl
      | cons a l => simp at hempty
    subst hnil
    simp
  · have hne : answers ≠ [] := by
      intro h; subst h; simp at hempty
    rw [if_neg hempty]
    by_cases hinv : ((answers.map Prod.fst).filter
        (fun k => !((previousDraft.questions_for_user.map AIQuestion.id).contains k))).length > 0
    · rw [if_pos hinv]
      have hbad : ¬ ∀ k ∈ answers.map Prod.fst,
          k ∈ previousDraft.questions_for_user.map AIQuestion.id := by
        intro hall
        have : ((answers.map Prod.fst).filter
            (fun k => !((previousDraft.questions_for_user.map AIQuestion.id).contains k))) = [] := by
          rw [List.filter_eq_nil_iff]
          intro k hk
          simpa using hall k hk
        rw [this] at hinv
        simp at hinv
      refine ⟨?_, ?_, ?_, ?_⟩
      · exact iff_of_false (by rintro ⟨v, hv⟩; simp at hv) (fun hc => hbad hc.2)
      · intro v hv; simp at hv
      · intro invalid valid hv
        have h1 : ClarifyRejection.invalidKeys ((answers.map Prod.fst).filter
            (fun k => !((previousDraft.questions_for_user.map AIQuestion.id).contains k)))
            (previousDraft.questions_for_user.map AIQuestion.id)
            = ClarifyRejection.invalidKeys invalid valid := by
          simpa using hv
        injection h1 with h2 h3
        refine ⟨h2.symm, ?_, h3.symm⟩
        rw [← h2]
        intro hnil2
        rw [hnil2] at hinv
        simp at hinv
      · exact iff_of_false (by simp) hne
    · rw [if_neg hinv]
      have hgood : ∀ k ∈ answers.map Prod.fst,
          k ∈ previousDraft.questions_for_user.map AIQuestion.id := by
        intro k hk
        by_contra hkn
        have : k ∈ (answers.map Prod.fst).filter
            (fun k => !((previousDraft.questions_for_user.map AIQuestion.id).contains k)) := by
          rw [List.mem_filter]
          exact ⟨hk, by simpa using hkn⟩
        have hpos : 0 < ((answers.map Prod.fst).filter
            (fun k => !((previousDraft.questions_for_user.map AIQuestion.id).contains k))).length :=
          List.length_pos.mpr (List.ne_nil_of_mem this)
        exact hinv hpos
      refine ⟨?_, ?_, ?_, ?_⟩
      · exact iff_of_true ⟨answers, rfl⟩ ⟨hne, hgood⟩
      · intro v hv
        have := hv
        simp at this
        exact this.symm
      · intro invalid valid hv; simp at hv
      · simp [hne]

/-- Witness for C6: with two open questions and an answer to only "q1"
(a nonempty proper subset with a valid key), validation accepts and
passes the answers through. -/
theorem clarify_validation_witness :
    ∃ v, clarifyValidate responseAB [("q1", AnswerValue.num (35 / 2))] = .ok v :=
  (clarify_validation responseAB [("q1", AnswerValue.num (35 / 2))]).1.mpr
    (by refine ⟨by simp, ?_⟩; decide)

/-- Claim C7: each upstream engine failure shape maps to its own distinct
error category — HTTP 401 or an invalid-key code to "authentication",
HTTP 429 to "rate_limit" (a 503-status structured error, not a generic
500), HTTP 503 to "service_unavailable", and the connection error codes
ENOTFOUND/ECONNREFUSED/ETIMEDOUT to "network" — and a failed engine
call never yields a draft: `generateDraftPO` rethrows the mapped error
without retrying, leaving the caller's draft state untouched. -/
theorem upstream_failure_taxonomy (e : ApiCallError)
    (parse : String → Option AIParserResponse) :
    ((e.status = some 401 ∨ e.code = some "invalid_api_key") →
      (mapOpenAIError e).errorType = "authentication"
        ∧ (mapOpenAIError e).statusCode = 503)
    ∧ (e.status = some 429 → e.code ≠ some "invalid_api_key" →
      (mapOpenAIError e).errorType = "rate_limit"
        ∧ (mapOpenAIError e).statusCode = 503)
    ∧ (e.status = some 503 → e.code ≠ some "invalid_api_key" →
        e.code ≠ some "rate_limit_exceeded" →
      (mapOpenAIError e).errorType = "service_unavailable"
        ∧ (mapOpenAIError e).statusCode = 503)
    ∧ (e.status = none →
        (e.code = some "ENOTFOUND" ∨ e.code = some "ECONNREFUSED" ∨
          e.code = some "ETIMEDOUT") →
      (mapOpenAIError e).errorType = "network"
        ∧ (mapOpenAIError e).statusCode = 503)
    ∧ (∀ d, generateDraftPO (.failure e) parse ≠ .ok d) := by
  refine ⟨?_, ?_, ?_, ?_, ?_⟩
  · intro h1
    unfold mapOpenAIError
    rw [if_pos h1]
    exact ⟨rfl, rfl⟩
  · intro h429 hcode
    unfold mapOpenAIError
    rw [if_neg ?_, if_pos (Or.inl h429)]
    · exact ⟨rfl, rfl⟩
    · rintro (hs | hc)
      · rw [h429] at hs; simp at hs
      · exact hcode hc
  · intro h503 hcode1 hcode2
    unfold mapOpenAIError
    rw [if_neg ?_, if_neg ?_, if_pos (Or.inl h503)]
    · exact ⟨rfl, rfl⟩
    · rintro (hs | hc)
      · rw [h503] at hs; simp at hs
      · exact hcode2 hc
    · rintro (hs | hc)
      · rw [h503] at hs; simp at hs
      · exact hcode1 hc
  · intro hnone hcodes
    unfold mapOpenAIError
    rw [if_neg ?_, if_neg ?_, if_neg ?_, if_pos hcodes]
    · exact ⟨rfl, rfl⟩
    all_goals
      rintro (hs | hc)
      · rw [hnone] at hs; simp at hs
      · rcases hcodes with h | h | h <;> rw [h] at hc <;> simp at hc
  · intro d
    simp [generateDraftPO]

/-- Witness for C7: the four canonical failure shapes are mapped to the
four distinct categories, and the rate-limited call yields no draft. -/
theorem upstream_failure_taxonomy_witness :
    (mapOpenAIError { status := some 401, code := none }).errorType = "authentication"
    ∧ (mapOpenAIError { status := some 429, code := none }).errorType = "rate_limit"
    ∧ (mapOpenAIError { status := some 429, code := none }).statusCode = 503
    ∧ (mapOpenAIError { status := some 503, code := none }).errorType = "service_unavailable"
    ∧ (mapOpenAIError { status := none, code := some "ENOTFOUND" }).errorType = "network"
    ∧ generateDraftPO (.failure { status := some 429, code := none }) (fun _ => none)
        ≠ .ok responseAB := by
  refine ⟨?_, ?_, ?_, ?_, ?_, ?_⟩
  · exact ((upstream_failure_taxonomy { status := some 401, code := none }
      (fun _ => none)).1 (Or.inl rfl)).1
  · exact ((upstream_failure_taxonomy { status := some 429, code := none }
      (fun _ => none)).2.1 rfl (by simp)).1
  · exact ((upstream_failure_taxonomy { status := some 429, code := none }
      (fun _ => none)).2.1 rfl (by simp)).2
  · exact ((upstream_failure_taxonomy { status := some 503, code := none }
      (fun _ => none)).2.2.1 rfl (by simp) (by simp)).1
  · exact ((upstream_failure_taxonomy { status := none, code := some "ENOTFOUND" }
      (fun _ => none)).2.2.2.1 rfl (Or.inl rfl)).1
  · exact (upstream_failure_taxonomy { status := some 429, code := none }
      (fun _ => none)).2.2.2.2 responseAB

/-- Claim C8: `extractJson` first attempts a strict parse of the trimmed
text; on failure it parses exactly the substring from the first opening
brace to the last closing brace (when that span is nonempty); any
remaining failure is the single distinct unparsable-output error, and a
successful result can only come from one of those two parse attempts —
no other recovery is performed. -/
theorem extractJson_behavior {α : Type} (parse : String → Option α) (text : String) :
    (∀ v, parse (jsTrim text) = some v → extractJson parse text = .ok v)
    ∧ (∀ s e v, parse (jsTrim text) = none →
        jsIndexOfChar (jsTrim text).toList '\x7b' = some s →
        jsLastIndexOfChar (jsTrim text).toList '\x7d' = some e →
        e > s →
        parse (String.mk (((jsTrim text).toList.drop s).take (e + 1 - s))) = some v →
        extractJson parse text = .ok v)
    ∧ (∀ msg, extractJson parse text = .error msg →
        msg = "Could not parse valid JSON from model output.")
    ∧ (∀ v, extractJson parse text = .ok v →
        parse (jsTrim text) = some v
        ∨ ∃ s e, jsIndexOfChar (jsTrim text).toList '\x7b' = some s
            ∧ jsLastIndexOfChar (jsTrim text).toList '\x7d' = some e
            ∧ e > s
            ∧ parse (String.mk (((jsTrim text).toList.drop s).take (e + 1 - s))) = some v) := by
  refine ⟨?_, ?_, ?_, ?_⟩
  · intro v hv
    simp only [extractJson, hv]
  · intro s e v hnone hs he hlt hc
    simp only [extractJson, hnone, hs, he]
    rw [if_pos hlt, hc]
  · intro msg h
    simp only [extractJson] at h
    cases hp : parse (jsTrim text) with
    | some v =>
      simp only [hp] at h
      exact Except.noConfusion h
    | none =>
      simp only [hp] at h
      cases hs : jsIndexOfChar (jsTrim text).toList '\x7b' with
      | none =>
        simp only [hs] at h
        injection h with h2
        exact h2.symm
      | some s =>
        simp only [hs] at h
        cases he : jsLastIndexOfChar (jsTrim text).toList '\x7d' with
        | none =>
          simp only [he] at h
          injection h with h2
          exact h2.symm
        | some e =>
          simp only [he] at h
          by_cases hlt : e > s
          · rw [if_pos hlt] at h
            cases hc : parse (String.mk (((jsTrim text).toList.drop s).take (e + 1 - s))) with
            | some v =>
              simp only [hc] at h
              exact Except.noConfusion h
            | none =>
              simp only [hc] at h
              injection h with h2
              exact h2.symm
          · rw [if_neg hlt] at h
            injection h with h2
            exact h2.symm
  · intro v h
    simp only [extractJson] at h
    cases hp : parse (jsTrim text) with
    | some v0 =>
      simp only [hp] at h
      injection h with h2
      exact Or.inl (congrArg some h2)
    | none =>
      simp only [hp] at h
      cases hs : jsIndexOfChar (jsTrim text).toList '\x7b' with
      | none =>
        simp only [hs] at h
        exact Except.noConfusion h
      | some s =>
        simp only [hs] at h
        cases he : jsLastIndexOfChar (jsTrim text).toList '\x7d' with
        | none =>
          simp only [he] at h
          exact Except.noConfusion h
        | some e =>
          simp only [he] at h
          by_cases hlt : e > s
          · rw [if_pos hlt] at h
            cases hc : parse (String.mk (((jsTrim text).toList.drop s).take (e + 1 - s))) with
            | some v0 =>
              simp only [hc] at h
              injection h with h2
              exact Or.inr ⟨s, e, rfl, rfl, hlt, hc.trans (congrArg some h2)⟩
            | none =>
              simp only [hc] at h
              exact Except.noConfusion h
          · rw [if_neg hlt] at h
            simp at h


/-- Filtering out a key removes its entry. -/
theorem lookupAnswer_filter_self (k : String) :
    ∀ l : List (String × AnswerValue),
      lookupAnswer (l.filter (fun kv => kv.1 != k)) k = none := by
  intro l
  induction l with
  | nil => rfl
  | cons kv rest ih =>
    rw [List.filter_cons]
    by_cases h : kv.1 = k
    · simp [h, ih]
    · simp [h, lookupAnswer, ih]

/-- Filtering out a key leaves every other key untouched. -/
theorem lookupAnswer_filter_other (k k' : String) (h : k' ≠ k) :
    ∀ l : List (String × AnswerValue),
      lookupAnswer (l.filter (fun kv => kv.1 != k)) k' = lookupAnswer l k' := by
  intro l
  induction l with
  | nil => rfl
  | cons kv rest ih =>
    rw [List.filter_cons]
    have hkk : ¬(k = k') := fun hx => h hx.symm
    by_cases hk : kv.1 = k
    · have hk2 : ¬(kv.1 = k') := by rw [hk]; exact hkk
      simp [hk, lookupAnswer, hk2, hkk, h, ih]
    · by_cases hk2 : kv.1 = k'
      · simp [hk, lookupAnswer, hk2, hkk, h]
      · simp [hk, lookupAnswer, hk2, hkk, h, ih]

/-- The in-place map-update makes the key hold the new value whenever
the key was present. -/
theorem lookupAnswer_mapset_self (k : String) (v : AnswerValue) :
    ∀ l : List (String × AnswerValue),
      lookupAnswer (l.map (fun kv => if kv.1 = k then (k, v) else kv)) k
        = if (lookupAnswer l k).isSome then some v else none := by
  intro l
  induction l with
  | nil => rfl
  | cons kv rest ih =>
    rw [List.map_cons]
    by_cases h : kv.1 = k
    · simp [h, lookupAnswer]
    · simp [lookupAnswer, h, ih]

/-- The in-place map-update leaves every other key untouched. -/
theorem lookupAnswer_mapset_other (k k' : String) (v : AnswerValue) (h : k' ≠ k) :
    ∀ l : List (String × AnswerValue),
      lookupAnswer (l.map (fun kv => if kv.1 = k then (k, v) else kv)) k'
        = lookupAnswer l k' := by
  intro l
  induction l with
  | nil => rfl
  | cons kv rest ih =>
    rw [List.map_cons]
    have hkk : ¬(k = k') := fun hx => h hx.symm
    by_cases hk : kv.1 = k
    · have hk2 : ¬(kv.1 = k') := by rw [hk]; exact hkk
      simp [hk, lookupAnswer, hkk, hk2, h, ih]
    · by_cases hk2 : kv.1 = k'
      · simp [hk, lookupAnswer, hk2, hkk, h]
      · simp [hk, lookupAnswer, hk2, hkk, h, ih]

/-- Lookup skips over a list in which the key is absent. -/
theorem lookupAnswer_append_of_none (k : String)
    (m : List (String × AnswerValue)) :
    ∀ l : List (String × AnswerValue), lookupAnswer l k = none →
      lookupAnswer (l ++ m) k = lookupAnswer m k := by
  intro l
  induction l with
  | nil => intro _; rfl
  | cons kv rest ih =>
    intro hl
    simp only [lookupAnswer] at hl
    by_cases h : kv.1 = k
    · rw [if_pos h] at hl; exact absurd hl (by simp)
    · rw [if_neg h] at hl
      simp only [List.cons_append, lookupAnswer, h, if_false]
      exact ih hl

/-- A key is among the first components exactly when its lookup
succeeds. -/
theorem containsKey_iff_isSome (k : String) :
    ∀ l : List (String × AnswerValue),
      (l.map Prod.fst).contains k = true ↔ (lookupAnswer l k).isSome = true := by
  intro l
  induction l with
  | nil => simp [lookupAnswer]
  | cons kv rest ih =>
    simp only [List.map_cons, List.contains_cons, Bool.or_eq_true, lookupAnswer]
    by_cases h : kv.1 = k
    · simp [h]
    · have hne : (k == kv.1) = false := beq_eq_false_iff_ne.mpr (fun hx => h hx.symm)
      rw [hne]
      constructor
      · rintro (hfalse | hcont)
        · exact absurd hfalse (by simp)
        · rw [if_neg h]
          exact ih.mp hcont
      · intro hsome
        rw [if_neg h] at hsome
        exact Or.inr (ih.mpr hsome)

/-- Lookup over an appended list tries the left part first. -/
theorem lookupAnswer_append (k : String) (m : List (String × AnswerValue)) :
    ∀ l : List (String × AnswerValue),
      lookupAnswer (l ++ m) k =
        match lookupAnswer l k with
        | some v => some v
        | none => lookupAnswer m k := by
  intro l
  induction l with
  | nil => rfl
  | cons kv rest ih =>
    by_cases h : kv.1 = k
    · simp [lookupAnswer, h]
    · simp only [List.cons_append, lookupAnswer, h, if_false]
      exact ih

/-- After a JS spread-set, the key holds the supplied value. -/
theorem lookupAnswer_set_self (l : List (String × AnswerValue)) (k : String)
    (v : AnswerValue) :
    lookupAnswer (jsObjectSet l k v) k = some v := by
  unfold jsObjectSet
  by_cases hc : (l.map Prod.fst).contains k
  · rw [if_pos hc, lookupAnswer_mapset_self]
    rw [if_pos ((containsKey_iff_isSome k l).mp hc)]
  · rw [if_neg hc]
    have hnone : lookupAnswer l k = none := by
      cases hl : lookupAnswer l k with
      | none => rfl
      | some v0 => exact absurd ((containsKey_iff_isSome k l).mpr (by simp [hl])) hc
    rw [lookupAnswer_append, hnone]
    simp [lookupAnswer]

/-- A JS spread-set leaves every other key untouched. -/
theorem lookupAnswer_set_other (l : List (String × AnswerValue)) (k k' : String)
    (v : AnswerValue) (h : k' ≠ k) :
    lookupAnswer (jsObjectSet l k v) k' = lookupAnswer l k' := by
  unfold jsObjectSet
  by_cases hc : (l.map Prod.fst).contains k
  · rw [if_pos hc, lookupAnswer_mapset_other k k' v h]
  · rw [if_neg hc, lookupAnswer_append]
    cases hl : lookupAnswer l k' with
    | some v0 => rfl
    | none =>
      have hkk : ¬(k = k') := fun hx => h hx.symm
      simp [lookupAnswer, hkk]

/-- Entries surviving a delete come from the original object. -/
theorem mem_jsObjectDelete (l : List (String × AnswerValue)) (k : String)
    (kv : String × AnswerValue) (h : kv ∈ jsObjectDelete l k) : kv ∈ l :=
  (List.mem_filter.mp h).1

/-- An entry of the updated object comes from the original object or is
the newly set pair. -/
theorem mem_jsObjectSet (l : List (String × AnswerValue)) (k : String) (v : AnswerValue)
    (kv : String × AnswerValue) (h : kv ∈ jsObjectSet l k v) : kv ∈ l ∨ kv = (k, v) := by
  unfold jsObjectSet at h
  by_cases hc : (l.map Prod.fst).contains k
  · rw [if_pos hc] at h
    obtain ⟨kv0, hkv0, heq⟩ := List.mem_map.mp h
    by_cases h0 : kv0.1 = k
    · rw [if_pos h0] at heq
      exact Or.inr heq.symm
    · rw [if_neg h0] at heq
      exact Or.inl (heq ▸ hkv0)
  · rw [if_neg hc] at h
    rcases List.mem_append.mp h with h | h
    · exact Or.inl h
    · simp only [List.mem_singleton] at h
      exact Or.inr h

/-- Claim C10: the clarification-answers map never holds a null, empty
or NaN entry: a call of `handleClarificationAnswer` with a null, empty
or NaN value deletes the question's entry, any other value is stored for
that question, every other entry is untouched, and the no-invalid-entry
invariant is preserved. -/
theorem clarification_answer_map_update (prev : List (String × AnswerValue))
    (questionId : String) (value : Option AnswerValue) :
    (clearsAnswer value = true →
        lookupAnswer (handleClarificationAnswer prev questionId value) questionId = none)
    ∧ (∀ v, value = some v → clearsAnswer value = false →
        lookupAnswer (handleClarificationAnswer prev questionId value) questionId = some v)
    ∧ (∀ k, k ≠ questionId →
        lookupAnswer (handleClarificationAnswer prev questionId value) k
          = lookupAnswer prev k)
    ∧ ((∀ kv ∈ prev, kv.2 ≠ .str "" ∧ kv.2 ≠ .nan) →
        ∀ kv ∈ handleClarificationAnswer prev questionId value,
          kv.2 ≠ .str "" ∧ kv.2 ≠ .nan) := by
  refine ⟨?_, ?_, ?_, ?_⟩
  · intro hcl
    unfold handleClarificationAnswer
    rw [if_pos hcl]
    exact lookupAnswer_filter_self questionId prev
  · intro v hv hncl
    unfold handleClarificationAnswer
    rw [if_neg (by simp [hncl]), hv]
    exact lookupAnswer_set_self prev questionId v
  · intro k hk
    unfold handleClarificationAnswer
    by_cases hcl : clearsAnswer value = true
    · rw [if_pos hcl]
      exact lookupAnswer_filter_other questionId k hk prev
    · rw [if_neg hcl]
      cases value with
      | none => exact lookupAnswer_filter_other questionId k hk prev
      | some v => exact lookupAnswer_set_other prev questionId k v hk
  · intro hprev kv hkv
    unfold handleClarificationAnswer at hkv
    by_cases hcl : clearsAnswer value = true
    · rw [if_pos hcl] at hkv
      exact hprev kv (mem_jsObjectDelete prev questionId kv hkv)
    · rw [if_neg hcl] at hkv
      cases value with
      | none => exact hprev kv (mem_jsObjectDelete prev questionId kv hkv)
      | some v =>
        rcases mem_jsObjectSet prev questionId v kv hkv with hmem | heq
        · exact hprev kv hmem
        · subst heq
          constructor
          · intro hbad
            exact hcl (by rw [show v = AnswerValue.str "" from hbad]; decide)
          · intro hbad
            exact hcl (by rw [show v = AnswerValue.nan from hbad]; decide)

/-- Witness for C10: clearing "q1" with an empty-string value deletes its
entry and leaves "q2" untouched, and storing a number for "q2" replaces
its entry. -/
theorem clarification_answer_map_update_witness :
    lookupAnswer (handleClarificationAnswer
        [("q1", AnswerValue.num 17), ("q2", AnswerValue.str "yes")]
        "q1" (some (AnswerValue.str ""))) "q1" = none
    ∧ lookupAnswer (handleClarificationAnswer
        [("q1", AnswerValue.num 17), ("q2", AnswerValue.str "yes")]
        "q1" (some (AnswerValue.str ""))) "q2"
      = lookupAnswer [("q1", AnswerValue.num 17), ("q2", AnswerValue.str "yes")] "q2"
    ∧ lookupAnswer (handleClarificationAnswer
        [("q1", AnswerValue.num 17), ("q2", AnswerValue.str "yes")]
        "q2" (some (AnswerValue.num 20))) "q2" = some (AnswerValue.num 20) :=
  ⟨(clarification_answer_map_update
      [("q1", AnswerValue.num 17), ("q2", AnswerValue.str "yes")]
      "q1" (some (AnswerValue.str ""))).1 (by decide),
   (clarification_answer_map_update
      [("q1", AnswerValue.num 17), ("q2", AnswerValue.str "yes")]
      "q1" (some (AnswerValue.str ""))).2.2.1 "q2" (by decide),
   (clarification_answer_map_update
      [("q1", AnswerValue.num 17), ("q2", AnswerValue.str "yes")]
      "q2" (some (AnswerValue.num 20))).2.1 (AnswerValue.num 20) rfl (by decide)⟩

/-- A concrete model of `JSON.parse` that succeeds on exactly one JSON
object string. -/
def sampleParse (s : String) : Option Nat :=
  if s = "\x7b\"total\": 7\x7d" then some 7 else none

/-- A raw model output wrapping that JSON object in explanatory prose. -/
def sampleRawOutput : String := "  Here is the JSON: \x7b\"total\": 7\x7d done  "

/-- Witness for C8: on prose-wrapped output the strict parse fails and
the outermost brace span (characters 18 through 29 of the trimmed text)
parses, so `extractJson` succeeds through the fallback. -/
theorem extractJson_behavior_witness :
    extractJson sampleParse sampleRawOutput = .ok 7 :=
  (extractJson_behavior sampleParse sampleRawOutput).2.1 18 29 7
    (by decide) (by decide) (by decide) (by decide) (by decide)
